import Mathlib

/-!
Verification of the EarTrainerLoop program (`eartrainerloop.py`).

The Python source is shallowly embedded: classes become structures, methods
become functions with explicit state passing, wall-clock time becomes an
explicit integer millisecond parameter, and Python runtime errors
(KeyError, IndexError, AttributeError, TypeError) become `none` of an
`Option` result.
-/

namespace EarTrainerLoop

/-- Python list indexing `xs[i]`: a negative index counts from the end;
an out-of-range index raises IndexError, modelled as `none`. -/
def pyGetItem {α : Type} (xs : List α) (i : Int) : Option α :=
  let j : Int := if i < 0 then (xs.length : Int) + i else i
  if j < 0 then none else xs[j.toNat]?

/-- Python `str.replace(needle, repl)` specialised to a one-character
needle, as used by `Sound.cleaned_filename`: replaces every occurrence,
left to right. -/
def pyReplaceChar (needle : Char) (repl : List Char) : List Char → List Char
  | [] => []
  | c :: rest =>
    if c = needle then repl ++ pyReplaceChar needle repl rest
    else c :: pyReplaceChar needle repl rest

/-- Python `str.split(' ')`: split on every single space, keeping empty
parts (no run collapsing). -/
def pySplitSpace : List Char → List (List Char)
  | [] => [[]]
  | c :: rest =>
    let r := pySplitSpace rest
    if c = ' ' then [] :: r
    else
      match r with
      | [] => [[c]]
      | h :: t => (c :: h) :: t

/-- Python `Sound.cleaned_filename`:
`filename.replace('#', 'sh').replace('b', 'flat')`. -/
def Sound.cleaned_filename (filename : String) : String :=
  ⟨pyReplaceChar 'b' "flat".data (pyReplaceChar '#' "sh".data filename.data)⟩

/-- Python `Note.NOTES`, the 12 canonical chromatic pitch-class names,
C through B in semitone order. -/
def NOTES : List String :=
  ["C", "C#", "D", "D#", "E", "F"] ++ ["F#", "G", "G#", "A", "A#", "B"]

/-- Python `Note`: a pitch-class name and an octave (the derived `identity` and
`sound` members carry no state of their own and are modelled separately). -/
structure Note where
  note_name : String
  octave : Int
deriving DecidableEq, Repr

/-- Python `Note.add_semitones`: looks up the pitch class in `NOTES`
(`list.index`, ValueError → `none`), adds the offset, subtracts 12 and
bumps the octave when the sum reaches past the table, and indexes `NOTES`
with the result (IndexError → `none`). -/
def Note.add_semitones (note : Note) (semitones : Int) : Option Note := do
  let idx ← NOTES.findIdx? (· == note.note_name)
  let i : Int := (idx : Int) + semitones
  let new_note_idx : Int := if i ≥ (NOTES.length : Int) then i - (NOTES.length : Int) else i
  let new_note_octave : Int := if i ≥ (NOTES.length : Int) then note.octave + 1 else note.octave
  let new_note_name ← pyGetItem NOTES new_note_idx
  pure ⟨new_note_name, new_note_octave⟩

/-- C1: For every canonical pitch class (index `k < 12`) and every
semitone offset `n ≤ 12`, `add_semitones` returns the pitch class at
index `(k + n) % 12` and octave `o + (k + n) / 12`. -/
theorem note_add_semitones_mod12
    (k n : Nat) (hk : k < 12) (hn : n ≤ 12) (o : Int) :
    Note.add_semitones ⟨NOTES.getD k "", o⟩ (n : Int) =
      some ⟨NOTES.getD ((k + n) % 12) "", o + ((k + n) / 12 : Nat)⟩ := by
  have hidx : NOTES.findIdx? (· == NOTES.getD k "") = some k := by
    have h : ∀ m, m < 12 → NOTES.findIdx? (· == NOTES.getD m "") = some m := by decide
    exact h k hk
  have hget : ∀ j : Nat, j < 12 → pyGetItem NOTES (j : Int) = some (NOTES.getD j "") := by
    decide
  have hlen : (NOTES.length : Int) = 12 := by decide
  have hcast : (k : Int) + (n : Int) = ((k + n : Nat) : Int) := by push_cast; ring
  rcases Nat.lt_or_ge (k + n) 12 with hlt | hge
  · have hmod : (k + n) % 12 = k + n := Nat.mod_eq_of_lt hlt
    have hdiv : (k + n) / 12 = 0 := Nat.div_eq_of_lt hlt
    simp only [Note.add_semitones, hidx, Option.bind_eq_bind, Option.some_bind,
      ge_iff_le, hcast, hmod, hdiv, hlen]
    split_ifs with h
    · exfalso; omega
    · rw [hget (k + n) hlt]; simp [List.getD]
  · have hlt2 : k + n - 12 < 12 := by omega
    have hmod : (k + n) % 12 = k + n - 12 := by omega
    have hdiv : (k + n) / 12 = 1 := by omega
    have hcast2 : ((k + n : Nat) : Int) - 12 = ((k + n - 12 : Nat) : Int) := by omega
    simp only [Note.add_semitones, hidx, Option.bind_eq_bind, Option.some_bind,
      ge_iff_le, hcast, hmod, hdiv, hlen]
    split_ifs with h
    · rw [hcast2, hget (k + n - 12) hlt2]; simp [List.getD]
    · exfalso; omega

/-- Witness for C1 at the claim's example: `Note("B", 3).add_semitones(1)`
is `Note("C", 4)`. -/
theorem note_add_semitones_mod12_witness :
    11 < 12 ∧ 1 ≤ 12 ∧
      Note.add_semitones ⟨NOTES.getD 11 "", 3⟩ ((1 : Nat) : Int) =
        some ⟨NOTES.getD ((11 + 1) % 12) "", 3 + ((11 + 1) / 12 : Nat)⟩ :=
  ⟨by decide, by decide, note_add_semitones_mod12 11 1 (by decide) (by decide) 3⟩

/-- Python `Identity`: the spoken-name concept; only its name carries state
(its `Sound` is derived from the name's space-separated parts). -/
structure Identity where
  name : String
deriving DecidableEq, Repr

/-- Python `Interval.SEMITONE_MAP`: the 13 canonical interval names and their
semitone counts. -/
def SEMITONE_MAP : List (String × Int) :=
  [("unison", 0), ("min 2nd", 1), ("maj 2nd", 2), ("min 3rd", 3),
   ("maj 3rd", 4), ("4th", 5), ("dim 5th", 6), ("5th", 7),
   ("min 6th", 8), ("maj 6th", 9), ("min 7th", 10), ("maj 7th", 11),
   ("octave", 12)]

/-- Python `Interval`: name, root note and the derived second note. -/
structure Interval where
  name : String
  first_note : Note
  second_note : Note
deriving DecidableEq, Repr

/-- Python `Interval.semitones`: `SEMITONE_MAP[self.name]` (KeyError → `none`). -/
def Interval.semitones (iv : Interval) : Option Int :=
  SEMITONE_MAP.lookup iv.name

/-- Python `Note.add_interval`: `self.add_semitones(interval.semitones)`. -/
def Note.add_interval (note : Note) (iv : Interval) : Option Note :=
  iv.semitones.bind note.add_semitones

/-- Python `Interval.__init__`: records the root and computes the second note by
adding the looked-up semitone count to the root. -/
def Interval.init (interval : String) (root_note : Note) : Option Interval :=
  (SEMITONE_MAP.lookup interval).bind fun s =>
    (root_note.add_semitones s).bind fun second =>
      some ⟨interval, root_note, second⟩

/-- Python `Chord.INTERVAL_MAP`: triad quality → ordered interval names. -/
def INTERVAL_MAP : List (String × List String) :=
  [("maj", ["maj 3rd", "5th"]), ("min", ["min 3rd", "5th"]),
   ("dim", ["min 3rd", "dim 5th"])]

/-- Python `Chord`: quality-qualified name, octave, and constituent notes. -/
structure Chord where
  chord_name : String
  octave : Int
  notes : List Note
deriving DecidableEq, Repr

/-- The `for interval_name in intervals` loop of `Chord.__init__`: build
an `Interval` for each name and append `root_note.add_interval(interval)`. -/
def chordNotesLoop (root_note : Note) : List String → Option (List Note)
  | [] => some []
  | interval_name :: rest =>
    (Interval.init interval_name root_note).bind fun interval =>
      (root_note.add_interval interval).bind fun note =>
        (chordNotesLoop root_note rest).bind fun more =>
          some (note :: more)

/-- Python `Chord.__init__`: split the chord name on a space into root pitch
class and quality (anything but exactly two parts is a ValueError →
`none`), look up the quality's intervals (KeyError → `none`), and build
the note list as the root followed by the interval-added notes. -/
def Chord.init (chord_name : String) (octave : Int) : Option Chord :=
  match pySplitSpace chord_name.data with
  | [rn, ct] =>
    let root_note : Note := ⟨⟨rn⟩, octave⟩
    (INTERVAL_MAP.lookup (⟨ct⟩ : String)).bind fun intervals =>
      (chordNotesLoop root_note intervals).bind fun added =>
        some ⟨chord_name, octave, root_note :: added⟩
  | _ => none

/-- C2: For every canonical root pitch class (index `k < 12`), every triad
quality `q` whose interval list is `[iv1, iv2]`, and every octave, the
constructed chord's notes are exactly the root, then the root plus `iv1`'s
semitones, then the root plus `iv2`'s semitones, in that order. -/
theorem chord_notes_root_third_fifth
    (k : Nat) (hk : k < 12) (q iv1 iv2 : String) (s1 s2 : Int)
    (hq : INTERVAL_MAP.lookup q = some [iv1, iv2])
    (h1 : SEMITONE_MAP.lookup iv1 = some s1)
    (h2 : SEMITONE_MAP.lookup iv2 = some s2)
    (o : Int) (n1 n2 : Note)
    (ha1 : Note.add_semitones ⟨NOTES.getD k "", o⟩ s1 = some n1)
    (ha2 : Note.add_semitones ⟨NOTES.getD k "", o⟩ s2 = some n2) :
    Chord.init (NOTES.getD k "" ++ " " ++ q) o =
      some ⟨NOTES.getD k "" ++ " " ++ q, o, [⟨NOTES.getD k "", o⟩, n1, n2]⟩ := by
  have hq3 : q = "maj" ∨ q = "min" ∨ q = "dim" := by
    by_contra hcon
    push_neg at hcon
    obtain ⟨hn1, hn2, hn3⟩ := hcon
    have e1 : (q == "maj") = false := by simp [hn1]
    have e2 : (q == "min") = false := by simp [hn2]
    have e3 : (q == "dim") = false := by simp [hn3]
    simp [INTERVAL_MAP, List.lookup, e1, e2, e3] at hq
  have hsplit : pySplitSpace ((NOTES.getD k "" ++ " " ++ q)).data =
      [(NOTES.getD k "").data, q.data] := by
    have hall : ∀ m, m < 12 → ∀ r ∈ ["maj", "min", "dim"],
        pySplitSpace ((NOTES.getD m "" ++ " " ++ r)).data =
          [(NOTES.getD m "").data, r.data] := by decide
    rcases hq3 with h | h | h <;> subst h <;> exact hall k hk _ (by decide)
  rw [Chord.init, hsplit]
  simp only
  rw [show (⟨(NOTES.getD k "").data⟩ : String) = NOTES.getD k "" from rfl,
    show (⟨q.data⟩ : String) = q from rfl, hq]
  simp only [Option.some_bind]
  rw [chordNotesLoop, chordNotesLoop, chordNotesLoop]
  rw [Interval.init, Interval.init]
  simp only [Option.bind_eq_bind, Option.pure_def, Option.some_bind, h1, h2,
    ha1, ha2, Note.add_interval, Interval.semitones]

/-- Witness for C2 at the claim's examples: `Chord("C maj", 4)` and
`Chord("A min", 3)` (the latter exercising octave rollover). -/
theorem chord_notes_root_third_fifth_witness :
    Chord.init (NOTES.getD 0 "" ++ " " ++ "maj") 4 =
        some ⟨NOTES.getD 0 "" ++ " " ++ "maj", 4,
          [⟨NOTES.getD 0 "", 4⟩, ⟨"E", 4⟩, ⟨"G", 4⟩]⟩ ∧
    Chord.init (NOTES.getD 9 "" ++ " " ++ "min") 3 =
        some ⟨NOTES.getD 9 "" ++ " " ++ "min", 3,
          [⟨NOTES.getD 9 "", 3⟩, ⟨"C", 4⟩, ⟨"E", 4⟩]⟩ :=
  ⟨chord_notes_root_third_fifth 0 (by decide) "maj" "maj 3rd" "5th" 4 7
      (by decide) (by decide) (by decide) 4 ⟨"E", 4⟩ ⟨"G", 4⟩ (by decide) (by decide),
   chord_notes_root_third_fifth 9 (by decide) "min" "min 3rd" "5th" 3 7
      (by decide) (by decide) (by decide) 3 ⟨"C", 4⟩ ⟨"E", 4⟩ (by decide) (by decide)⟩

/-- The entity a `ProgramStep` plays (`ProgramStep_PlayNote` /
`ProgramStep_PlayChord` / `ProgramStep_PlayIdentity`); the base state
machine never inspects it (it only determines the sound side effect). -/
inductive StepKind
  | playNote (note : Note)
  | playChord (chord : Chord)
  | playIdentity (identity : Identity)
deriving DecidableEq, Repr

/-- Python `ProgramStep` state: running flag, optional start timestamp
(wall-clock milliseconds; `none` is Python `None`), configured duration,
and the played entity. -/
structure ProgramStep where
  is_running : Bool
  start_time : Option Int
  duration : Int
  kind : StepKind
deriving DecidableEq, Repr

/-- Python `ProgramStep.__init__` (reached through the subclass constructors):
not running, no start timestamp. -/
def ProgramStep.init (kind : StepKind) (duration : Int) : ProgramStep :=
  ⟨false, none, duration, kind⟩

/-- Python `ProgramStep.start`: set the running flag and record the clock (the
subclasses also trigger playback, a side effect outside the model). -/
def ProgramStep.start (s : ProgramStep) (now : Int) : ProgramStep :=
  { s with is_running := true, start_time := some now }

/-- Python `ProgramStep.elapsed_ms`: `None` when `start_time` is falsy (unset,
or the clock value 0, which `time.time()` never returns), otherwise
milliseconds since start. -/
def ProgramStep.elapsed_ms (s : ProgramStep) (now : Int) : Option Int :=
  match s.start_time with
  | none => none
  | some t => if t = 0 then none else some (now - t)

/-- Python `ProgramStep.stop`: clear the running flag and the start timestamp. -/
def ProgramStep.stop (s : ProgramStep) : ProgramStep :=
  { s with is_running := false, start_time := none }

/-- Python `ProgramStep.is_complete` is literally `not is_running`. -/
def ProgramStep.is_complete (s : ProgramStep) : Bool :=
  !s.is_running

/-- Python `ProgramStep.step`: compare elapsed time against the duration and
stop when strictly exceeded; comparing a `None` elapsed time against an
integer is a Python TypeError, modelled as `none`. -/
def ProgramStep.step (s : ProgramStep) (now : Int) : Option ProgramStep :=
  match s.elapsed_ms now with
  | none => none
  | some e => if e > s.duration then some s.stop else some s

/-- Python `Program` state: name, the step list (the store that the
`current_step` alias points into), running flag, the integer cursor, and
the alias itself, modelled as an optional index (`none` is Python
`None`). -/
structure Program where
  name : String
  steps : List ProgramStep
  is_running : Bool
  current_step_idx : Int
  current_step : Option Nat
deriving DecidableEq, Repr

/-- Python `Program.__init__`: cursor at -1, no current step, not running. -/
def Program.init (name : String) (steps : List ProgramStep) : Program :=
  ⟨name, steps, false, -1, none⟩

/-- Python `Program.start`: cursor to 0, alias to step 0 (IndexError on an
empty step list → `none`), start that step, set the running flag. -/
def Program.start (p : Program) (now : Int) : Option Program :=
  match p.steps with
  | [] => none
  | s0 :: rest => some { p with
      current_step_idx := 0,
      current_step := some 0,
      steps := s0.start now :: rest,
      is_running := true }

/-- Python `Program.stop`: clear the running flag, reset the cursor to 0 and
clear the `current_step` reference. -/
def Program.stop (p : Program) : Program :=
  { p with is_running := false, current_step_idx := 0, current_step := none }

/-- Python `Program.is_complete` is literally `not is_running`. -/
def Program.is_complete (p : Program) : Bool :=
  !p.is_running

/-- Python `Program.step`: poll the current step through the alias (Python
`None.step()` is an AttributeError when the alias is cleared, modelled
as `none`; a failing step poll propagates); if the step is now complete,
advance the cursor, and either stop the program (cursor past the end) or
start the new current step in the same call. -/
def Program.step (p : Program) (now : Int) : Option Program :=
  match p.current_step with
  | none => none
  | some i =>
    match p.steps[i]? with
    | none => none
    | some cur =>
      match cur.step now with
      | none => none
      | some cur1 =>
        let steps1 := p.steps.set i cur1
        if cur1.is_complete then
          let idx1 := p.current_step_idx + 1
          if idx1 ≥ (steps1.length : Int) then
            some (Program.stop { p with steps := steps1, current_step_idx := idx1 })
          else
            match steps1[idx1.toNat]? with
            | none => none
            | some nxt => some { p with
                steps := steps1.set idx1.toNat (nxt.start now),
                current_step_idx := idx1,
                current_step := some idx1.toNat }
        else
          some { p with steps := steps1 }

/-- The two-step program of the spec's timing example: durations 100 ms
then 200 ms. -/
def twoStepProgram : Program :=
  Program.init "P" [ProgramStep.init (.playIdentity ⟨"a"⟩) 100,
                    ProgramStep.init (.playIdentity ⟨"b"⟩) 200]

/-- C9: `is_complete` is exactly the negation of `is_running` for both
`ProgramStep` and `Program`, so a freshly constructed, never-started
step or program already reports itself complete — NotStarted and
Complete are indistinguishable through `is_complete`. -/
theorem is_complete_is_negation_of_is_running :
    (∀ s : ProgramStep, s.is_complete = !s.is_running) ∧
    (∀ p : Program, p.is_complete = !p.is_running) ∧
    (∀ kind duration, (ProgramStep.init kind duration).is_complete = true) ∧
    (∀ name steps, (Program.init name steps).is_complete = true) :=
  ⟨fun _ => rfl, fun _ => rfl, fun _ _ => rfl, fun _ _ => rfl⟩

/-- C10: polling a step whose start timestamp is unset is an error, not
a no-op: `elapsed_ms` is `None` there, and the duration comparison in
`step` fails on it (Python TypeError, modelled as `none`); this holds
both for a never-started step and for one whose timestamp `stop` has
cleared, so polling requires a prior `start`. -/
theorem step_poll_requires_start :
    (∀ kind duration now,
      ProgramStep.step (ProgramStep.init kind duration) now = none) ∧
    (∀ s : ProgramStep, ∀ now, ProgramStep.step s.stop now = none) ∧
    (∀ kind duration now,
      ProgramStep.elapsed_ms (ProgramStep.init kind duration) now = none) :=
  ⟨fun _ _ _ => rfl, fun _ _ => rfl, fun _ _ _ => rfl⟩

/-- C7 counterexample: a zero-duration step polled immediately after
start, with zero elapsed milliseconds, does NOT complete: the code tests
`elapsed_ms > duration`, and `0 > 0` is false, so the step stays
Running, contradicting "completes on the very next poll". -/
theorem zero_duration_first_poll_cex :
    ProgramStep.step
        (ProgramStep.start (ProgramStep.init (.playIdentity ⟨"C"⟩) 0) 5) 5 =
      some (ProgramStep.start (ProgramStep.init (.playIdentity ⟨"C"⟩) 0) 5) ∧
    (ProgramStep.start (ProgramStep.init (.playIdentity ⟨"C"⟩) 0) 5).is_complete
      = false := by
  constructor <;> decide

/-- C7 amended: after `start`, a step with strictly negative duration
completes on the very next poll regardless of elapsed time, and a step
with zero duration completes on the first poll that observes a positive
elapsed time. -/
theorem nonpositive_duration_poll
    (kind : StepKind) (d t0 t : Int) (h0 : 0 < t0) (hle : t0 ≤ t)
    (hd : d ≤ 0) (hs : d < 0 ∨ t0 < t) :
    ProgramStep.step (ProgramStep.start (ProgramStep.init kind d) t0) t =
      some ⟨false, none, d, kind⟩ := by
  have ht0 : ¬ (t0 = 0) := by omega
  have hgt : t - t0 > d := by omega
  simp [ProgramStep.step, ProgramStep.elapsed_ms, ProgramStep.start,
    ProgramStep.init, ProgramStep.stop, ht0, hgt]

/-- Witness for C7 (amended): a duration of -5 ms completes on a poll
with zero elapsed time. -/
theorem nonpositive_duration_poll_witness :
    (0 : Int) < 1 ∧ (1 : Int) ≤ 1 ∧ (-5 : Int) ≤ 0 ∧ (-5 : Int) < 0 ∧
    ProgramStep.step
        (ProgramStep.start (ProgramStep.init (.playIdentity ⟨"C"⟩) (-5)) 1) 1 =
      some ⟨false, none, -5, .playIdentity ⟨"C"⟩⟩ :=
  ⟨by decide, by decide, by decide, by decide,
   nonpositive_duration_poll (.playIdentity ⟨"C"⟩) (-5) 1 1
     (by decide) (by decide) (by decide) (Or.inl (by decide))⟩

/-- C3 counterexample: on the 100/200 ms program started at clock 1, a
poll at clock 101 observes elapsed time exactly 100 ms ("at least
100 ms" per the claim) yet changes nothing: step 0 stays Running and
step 1 is not started, because the code requires elapsed time strictly
greater than the duration. -/
theorem program_poll_at_exact_duration_cex :
    (Program.start twoStepProgram 1).bind (fun p => p.step 101) =
      Program.start twoStepProgram 1 ∧
    (Program.start twoStepProgram 1).map
        (fun p => ((p.steps.getD 0 (ProgramStep.init (.playIdentity ⟨"a"⟩) 0)).is_running,
                   p.current_step_idx)) = some (true, 0) := by
  constructor <;> decide

/-- C3 amended: for the two-step 100/200 ms program, `start` leaves step
0 Running, and a poll that observes elapsed time on step 0 strictly
greater than 100 ms stops step 0 and starts step 1 within that same poll
call (never deferred to a later poll). -/
theorem program_poll_transitions_same_call
    (name : String) (k0 k1 : StepKind) (t0 t : Int)
    (h0 : 0 < t0) (ht : t - t0 > 100) :
    Program.start
        (Program.init name [ProgramStep.init k0 100, ProgramStep.init k1 200]) t0 =
      some ⟨name, [⟨true, some t0, 100, k0⟩, ⟨false, none, 200, k1⟩],
        true, 0, some 0⟩ ∧
    Program.step
        (⟨name, [⟨true, some t0, 100, k0⟩, ⟨false, none, 200, k1⟩],
          true, 0, some 0⟩ : Program) t =
      some ⟨name, [⟨false, none, 100, k0⟩, ⟨true, some t, 200, k1⟩],
        true, 1, some 1⟩ := by
  have ht0 : ¬ (t0 = 0) := by omega
  refine ⟨rfl, ?_⟩
  simp [Program.step, ProgramStep.step, ProgramStep.elapsed_ms, ProgramStep.stop,
    ProgramStep.is_complete, ProgramStep.start, Program.stop, ht0, ht]

/-- Witness for C3 (amended): start at clock 1, poll at clock 102
(elapsed 101 ms > 100 ms): step 0 completes and step 1 starts in that
same poll. -/
theorem program_poll_transitions_same_call_witness :
    (0 : Int) < 1 ∧ (102 : Int) - 1 > 100 ∧
    (Program.start
        (Program.init "P" [ProgramStep.init (.playIdentity ⟨"a"⟩) 100,
          ProgramStep.init (.playIdentity ⟨"b"⟩) 200]) 1 =
      some ⟨"P", [⟨true, some 1, 100, .playIdentity ⟨"a"⟩⟩,
        ⟨false, none, 200, .playIdentity ⟨"b"⟩⟩], true, 0, some 0⟩ ∧
    Program.step
        (⟨"P", [⟨true, some 1, 100, .playIdentity ⟨"a"⟩⟩,
          ⟨false, none, 200, .playIdentity ⟨"b"⟩⟩], true, 0, some 0⟩ : Program) 102 =
      some ⟨"P", [⟨false, none, 100, .playIdentity ⟨"a"⟩⟩,
        ⟨true, some 102, 200, .playIdentity ⟨"b"⟩⟩], true, 1, some 1⟩) :=
  ⟨by decide, by decide,
   program_poll_transitions_same_call "P" (.playIdentity ⟨"a"⟩) (.playIdentity ⟨"b"⟩)
     1 102 (by decide) (by decide)⟩

/-- C4 counterexample: drive the 100/200 ms program to completion
(start at 1; poll at 102 finishing step 0; poll at 303 finishing step 1
and stopping the program), then poll once more: the extra poll
dereferences the cleared `current_step` (Python AttributeError, `none`),
so polls after completion fail instead of being no-ops. -/
theorem program_poll_after_complete_cex :
    ((Program.start twoStepProgram 1).bind (fun p => p.step 102)).bind
        (fun p => p.step 303) =
      some ⟨"P", [⟨false, none, 100, .playIdentity ⟨"a"⟩⟩,
        ⟨false, none, 200, .playIdentity ⟨"b"⟩⟩], false, 0, none⟩ ∧
    (⟨"P", [⟨false, none, 100, .playIdentity ⟨"a"⟩⟩,
        ⟨false, none, 200, .playIdentity ⟨"b"⟩⟩], false, 0, none⟩
      : Program).is_complete = true ∧
    Program.step
        (⟨"P", [⟨false, none, 100, .playIdentity ⟨"a"⟩⟩,
          ⟨false, none, 200, .playIdentity ⟨"b"⟩⟩], false, 0, none⟩ : Program) 400 =
      none := by
  refine ⟨by decide, by decide, by decide⟩

/-- C4 amended: a Program that has been stopped — as happens exactly
when its last step finishes and the cursor moves past the end — fails on
every further poll: `stop` clears the `current_step` reference and
`step` then dereferences `None`, an error rather than a no-op. The
Runner Loop avoids this by discarding a Program as soon as
`is_complete` is true. -/
theorem program_step_after_stop_none (p : Program) (now : Int) :
    Program.step (Program.stop p) now = none := rfl

/-- Python `pyReplaceChar` distributes over list append. -/
theorem pyReplaceChar_append (needle : Char) (repl : List Char) :
    ∀ xs ys : List Char,
      pyReplaceChar needle repl (xs ++ ys) =
        pyReplaceChar needle repl xs ++ pyReplaceChar needle repl ys := by
  intro xs ys
  induction xs with
  | nil => rfl
  | cons c rest ih =>
    by_cases h : c = needle <;> simp [pyReplaceChar, h, ih]

/-- C8: sample-filename canonicalization is a total pure transform with
no error path: on every input it maps each character independently,
every `#` to the sharp marker "sh" and every letter `b` (not only a
leading or accidental one) to the flat marker "flat", leaving all other
characters unchanged. -/
theorem cleaned_filename_charwise (filename : String) :
    Sound.cleaned_filename filename =
      ⟨filename.data.flatMap
        (fun c => if c = '#' then "sh".data
         else if c = 'b' then "flat".data else [c])⟩ := by
  obtain ⟨l⟩ := filename
  rw [Sound.cleaned_filename]
  congr 1
  induction l with
  | nil => rfl
  | cons c rest ih =>
    by_cases h1 : c = '#'
    · subst h1
      simp [pyReplaceChar, pyReplaceChar_append, ih]
    · by_cases h2 : c = 'b'
      · subst h2
        simp [pyReplaceChar, h1, ih]
      · simp [pyReplaceChar, h1, h2, ih]

/-- Python `Note.name`: `f'{note_name}{octave}'`. -/
def Note.name (n : Note) : String :=
  n.note_name ++ toString n.octave

/-- Python `Chord.name`: `f'{chord_name}{octave}'`. -/
def Chord.name (c : Chord) : String :=
  c.chord_name ++ toString c.octave

/-- Python `ProgramStep_PlayNote(note, duration)`. -/
def ProgramStep_PlayNote (note : Note) (duration : Int) : ProgramStep :=
  ProgramStep.init (.playNote note) duration

/-- Python `ProgramStep_PlayChord(chord, duration)`. -/
def ProgramStep_PlayChord (chord : Chord) (duration : Int) : ProgramStep :=
  ProgramStep.init (.playChord chord) duration

/-- Python `ProgramStep_PlayIdentity(identity, duration)`. -/
def ProgramStep_PlayIdentity (identity : Identity) (duration : Int) : ProgramStep :=
  ProgramStep.init (.playIdentity identity) duration

/-- The `settings` table of the TOML configuration (every key the
generator reads). -/
structure Settings where
  octave_range_start : Int
  octave_range_end : Int
  note_duration : Int
  identity_duration : Int
deriving DecidableEq, Repr

/-- The parsed configuration document: settings plus the three program
lists of the `[programs]` table, each `none` when its key is absent from
the parsed TOML dictionary. -/
structure ConfigFile where
  settings : Settings
  programs_notes : Option (List String)
  programs_intervals : Option (List String)
  programs_chords : Option (List String)
deriving DecidableEq, Repr

/-- Python `ConfigFile.octave_range`: `range(start, end + 1)` — the inclusive
octave range. -/
def ConfigFile.octave_range (cfg : ConfigFile) : List Int :=
  (List.range
      (cfg.settings.octave_range_end + 1 - cfg.settings.octave_range_start).toNat).map
    (fun i => cfg.settings.octave_range_start + i)

/-- Sequential accumulation of the Python nested `for` loops that append
optional results: aborts on the first error, concatenates in loop
order. -/
def optFlatMap {α β : Type} (f : α → Option (List β)) : List α → Option (List β)
  | [] => some []
  | a :: t =>
    (f a).bind fun hd =>
      (optFlatMap f t).bind fun tl =>
        some (hd ++ tl)

/-- Python `ConfigFile.read_note_programs`:
`config['programs']['notes'] or []` (an absent key is a KeyError,
modelled as `none`, raised before the `or []` default can apply), then
one two-step program per configured note name × octave in range. -/
def ConfigFile.read_note_programs (cfg : ConfigFile) : Option (List Program) :=
  match cfg.programs_notes with
  | none => none
  | some l =>
    let note_programs := if l = [] then [] else l
    some (note_programs.flatMap fun note_name =>
      cfg.octave_range.map fun octave =>
        let note : Note := ⟨note_name, octave⟩
        Program.init ("Note - " ++ note.name)
          [ProgramStep_PlayNote note cfg.settings.note_duration,
           ProgramStep_PlayIdentity ⟨note_name⟩ cfg.settings.identity_duration])

/-- Python `ConfigFile.read_interval_programs`: one three-step program per
configured interval name × chromatic root name × octave in range; an
unknown interval name is a KeyError inside `Interval` (→ `none`). -/
def ConfigFile.read_interval_programs (cfg : ConfigFile) : Option (List Program) :=
  match cfg.programs_intervals with
  | none => none
  | some l =>
    let interval_programs := if l = [] then [] else l
    optFlatMap (fun interval_name =>
      optFlatMap (fun note_name =>
        optFlatMap (fun octave =>
          (Interval.init interval_name ⟨note_name, octave⟩).bind fun interval =>
            some [Program.init
              ("Interval - " ++ interval.name ++ " (" ++
                (⟨note_name, octave⟩ : Note).name ++ ")")
              [ProgramStep_PlayNote interval.first_note cfg.settings.note_duration,
               ProgramStep_PlayNote interval.second_note cfg.settings.note_duration,
               ProgramStep_PlayIdentity ⟨interval_name⟩
                 cfg.settings.identity_duration]])
          cfg.octave_range)
        NOTES)
      interval_programs

/-- Python `ConfigFile.read_chord_programs`: one two-step program per
configured chord quality × chromatic root name × octave in range; an
unknown quality is a KeyError inside `Chord` (→ `none`). -/
def ConfigFile.read_chord_programs (cfg : ConfigFile) : Option (List Program) :=
  match cfg.programs_chords with
  | none => none
  | some l =>
    let chord_programs := if l = [] then [] else l
    optFlatMap (fun chord_type =>
      optFlatMap (fun note_name =>
        optFlatMap (fun octave =>
          (Chord.init (note_name ++ " " ++ chord_type) octave).bind fun chord =>
            some [Program.init ("Chord - " ++ chord.name)
              [ProgramStep_PlayChord chord cfg.settings.note_duration,
               ProgramStep_PlayIdentity ⟨note_name ++ " " ++ chord_type⟩
                 cfg.settings.identity_duration]])
          cfg.octave_range)
        NOTES)
      chord_programs

/-- Python `ConfigFile.read_programs`: note programs, then interval programs,
then chord programs, concatenated in that order. -/
def ConfigFile.read_programs (cfg : ConfigFile) : Option (List Program) :=
  cfg.read_note_programs.bind fun note_progs =>
    cfg.read_interval_programs.bind fun interval_progs =>
      cfg.read_chord_programs.bind fun chord_progs =>
        some (note_progs ++ interval_progs ++ chord_progs)

/-- A configuration whose `[programs]` table lists intervals and chords
but has no `notes` key at all. -/
def cfgMissingNotes : ConfigFile :=
  ⟨⟨4, 4, 1000, 1000⟩, none, some ["5th"], some ["maj"]⟩

/-- C5 (code bug): an absent program section is NOT treated as empty.
`config['programs']['notes']` raises KeyError before the `or []` default
can apply, so `read_programs` fails instead of producing zero
note-programs — even though the other families on their own would
generate fine (third conjunct). -/
theorem missing_section_is_keyerror :
    ConfigFile.read_note_programs cfgMissingNotes = none ∧
    ConfigFile.read_programs cfgMissingNotes = none ∧
    (ConfigFile.read_interval_programs cfgMissingNotes).isSome = true := by
  refine ⟨rfl, rfl, by decide⟩

/-- Every canonical pitch class is found by `list.index` at an index
below 12. -/
theorem notes_findIdx_lt (p : String) (hp : p ∈ NOTES) :
    ∃ k, NOTES.findIdx? (· == p) = some k ∧ k < 12 := by
  have h : ∀ q ∈ NOTES, (NOTES.findIdx? (· == q)).isSome = true ∧
      (NOTES.findIdx? (· == q)).getD 12 < 12 := by decide
  obtain ⟨h1, h2⟩ := h p hp
  obtain ⟨k, hk⟩ := Option.isSome_iff_exists.mp h1
  refine ⟨k, hk, ?_⟩
  rw [hk] at h2
  simpa using h2

/-- Indexing `NOTES` with an in-range integer succeeds. -/
theorem pyGetItem_NOTES_some (j : Int) (h0 : 0 ≤ j) (h12 : j < 12) :
    ∃ x, pyGetItem NOTES j = some x := by
  have hx : ∀ m : Nat, m < 12 → (NOTES[m]?).isSome = true := by decide
  obtain ⟨x, hx'⟩ := Option.isSome_iff_exists.mp (hx j.toNat (by omega))
  refine ⟨x, ?_⟩
  have e : (if j < 0 then (NOTES.length : Int) + j else j) = j := if_neg (by omega)
  simp only [pyGetItem, e]
  rw [if_neg (by omega)]
  exact hx'

/-- Adding between 0 and 12 semitones to a note with a canonical pitch
class always succeeds. -/
theorem add_semitones_some (n : Note) (hp : n.note_name ∈ NOTES) (s : Int)
    (h0 : 0 ≤ s) (h12 : s ≤ 12) :
    ∃ m, Note.add_semitones n s = some m := by
  obtain ⟨k, hk, hklt⟩ := notes_findIdx_lt n.note_name hp
  have hlen : (NOTES.length : Int) = 12 := rfl
  simp only [Note.add_semitones, hk, Option.bind_eq_bind, Option.some_bind, hlen]
  split_ifs with hw
  · obtain ⟨x, hx⟩ := pyGetItem_NOTES_some ((k : Int) + s - 12) (by omega) (by omega)
    rw [hx]
    exact ⟨_, rfl⟩
  · obtain ⟨x, hx⟩ := pyGetItem_NOTES_some ((k : Int) + s) (by omega) (by omega)
    rw [hx]
    exact ⟨_, rfl⟩

/-- A successful association-list lookup returns one of the stored
values. -/
theorem lookup_mem_values {α β : Type} [BEq α] (a : α) (b : β) :
    ∀ l : List (α × β), l.lookup a = some b → b ∈ l.map Prod.snd := by
  intro l
  induction l with
  | nil => intro h; cases h
  | cons p t ih =>
    obtain ⟨key, v⟩ := p
    intro h
    rw [List.lookup] at h
    split at h
    · cases h
      exact List.mem_cons_self _ _
    · exact List.mem_cons_of_mem _ (ih h)

/-- A successful `SEMITONE_MAP` lookup yields a count between 0 and 12. -/
theorem semitone_lookup_bounds (iv : String) (s : Int)
    (h : SEMITONE_MAP.lookup iv = some s) : 0 ≤ s ∧ s ≤ 12 := by
  have hmem := lookup_mem_values iv s SEMITONE_MAP h
  simp [SEMITONE_MAP] at hmem
  omega

/-- A successful `INTERVAL_MAP` lookup is one of the three fixed
qualities with its fixed interval list. -/
theorem interval_map_cases (q : String) (ivs : List String)
    (h : INTERVAL_MAP.lookup q = some ivs) :
    (q = "maj" ∧ ivs = ["maj 3rd", "5th"]) ∨
    (q = "min" ∧ ivs = ["min 3rd", "5th"]) ∨
    (q = "dim" ∧ ivs = ["min 3rd", "dim 5th"]) := by
  by_cases h1 : q = "maj"
  · subst h1
    simp [INTERVAL_MAP, List.lookup] at h
    exact Or.inl ⟨rfl, h.symm⟩
  by_cases h2 : q = "min"
  · subst h2
    simp [INTERVAL_MAP, List.lookup] at h
    exact Or.inr (Or.inl ⟨rfl, h.symm⟩)
  by_cases h3 : q = "dim"
  · subst h3
    simp [INTERVAL_MAP, List.lookup] at h
    exact Or.inr (Or.inr ⟨rfl, h.symm⟩)
  · exfalso
    have e1 : (q == "maj") = false := by simp [h1]
    have e2 : (q == "min") = false := by simp [h2]
    have e3 : (q == "dim") = false := by simp [h3]
    simp [INTERVAL_MAP, List.lookup, e1, e2, e3] at h

/-- Splitting `"{pitch class} {quality}"` on spaces yields exactly the
two parts, for every canonical pitch class and quality. -/
theorem pySplitSpace_note_quality :
    ∀ p ∈ NOTES, ∀ q ∈ ["maj", "min", "dim"],
      pySplitSpace ((p ++ " " ++ q)).data = [p.data, q.data] := by decide

/-- A successful semitone lookup and a successful addition determine
`Interval.__init__`'s result. -/
theorem interval_init_eq (ivName : String) (root : Note) (s : Int) (m : Note)
    (hs : SEMITONE_MAP.lookup ivName = some s)
    (hm : root.add_semitones s = some m) :
    Interval.init ivName root = some ⟨ivName, root, m⟩ := by
  rw [Interval.init, hs]
  simp only [Option.some_bind]
  rw [hm]
  simp only [Option.some_bind]

/-- The chord-note loop succeeds whenever the root pitch class and all
interval names are canonical. -/
theorem chordNotesLoop_some (root : Note) (hroot : root.note_name ∈ NOTES) :
    ∀ l : List String, (∀ iv ∈ l, (SEMITONE_MAP.lookup iv).isSome = true) →
      ∃ ns, chordNotesLoop root l = some ns := by
  intro l
  induction l with
  | nil => exact fun _ => ⟨[], rfl⟩
  | cons ivName t ih =>
    intro h
    obtain ⟨s, hs⟩ := Option.isSome_iff_exists.mp (h ivName (List.mem_cons_self _ _))
    obtain ⟨hs0, hs12⟩ := semitone_lookup_bounds ivName s hs
    obtain ⟨m, hm⟩ := add_semitones_some root hroot s hs0 hs12
    obtain ⟨ns, hns⟩ := ih (fun b hb => h b (List.mem_cons_of_mem _ hb))
    refine ⟨m :: ns, ?_⟩
    rw [chordNotesLoop, interval_init_eq ivName root s m hs hm]
    simp only [Option.some_bind, Note.add_interval, Interval.semitones]
    rw [hs]
    simp only [Option.some_bind]
    rw [hm]
    simp only [Option.some_bind]
    rw [hns]
    simp only [Option.some_bind]

/-- Python `Chord.__init__` succeeds on `"{pitch class} {quality}"` for every
canonical pitch class and every quality in the interval map. -/
theorem chord_init_some (p : String) (hp : p ∈ NOTES) (ct : String)
    (ivs : List String) (hct : INTERVAL_MAP.lookup ct = some ivs) (o : Int) :
    ∃ c, Chord.init (p ++ " " ++ ct) o = some c := by
  have hct3 : ct ∈ ["maj", "min", "dim"] := by
    rcases interval_map_cases ct ivs hct with ⟨h, _⟩ | ⟨h, _⟩ | ⟨h, _⟩ <;>
      subst h <;> decide
  have hivall : ∀ iv ∈ ivs, (SEMITONE_MAP.lookup iv).isSome = true := by
    rcases interval_map_cases ct ivs hct with ⟨_, h⟩ | ⟨_, h⟩ | ⟨_, h⟩ <;>
      subst h <;> decide
  obtain ⟨ns, hns⟩ := chordNotesLoop_some ⟨p, o⟩ hp ivs hivall
  rw [Chord.init, pySplitSpace_note_quality p hp ct hct3]
  simp only
  rw [show (⟨p.data⟩ : String) = p from rfl, show (⟨ct.data⟩ : String) = ct from rfl,
    hct]
  simp only [Option.some_bind]
  rw [hns]
  exact ⟨_, rfl⟩

/-- Python `x.bind (fun v => some [g v])` produces a singleton list when `x`
succeeds. -/
theorem bind_some_singleton {α β : Type} (x : Option α) (g : α → List β) (a : α)
    (h : x = some a) :
    ∃ ys, (x.bind fun v => some (g v)) = some ys ∧ ys.length = (g a).length := by
  rw [h]
  exact ⟨g a, rfl, rfl⟩

/-- Python `optFlatMap` over a list whose every element yields `m` results
succeeds with `l.length * m` results. -/
theorem optFlatMap_length {α β : Type} (f : α → Option (List β)) (m : Nat) :
    ∀ l : List α, (∀ a ∈ l, ∃ ys, f a = some ys ∧ ys.length = m) →
      ∃ zs, optFlatMap f l = some zs ∧ zs.length = l.length * m := by
  intro l
  induction l with
  | nil => exact fun _ => ⟨[], rfl, by simp⟩
  | cons a t ih =>
    intro h
    obtain ⟨ys, hys, hyslen⟩ := h a (List.mem_cons_self a t)
    obtain ⟨zs, hzs, hzslen⟩ := ih (fun b hb => h b (List.mem_cons_of_mem a hb))
    refine ⟨ys ++ zs, ?_, ?_⟩
    · rw [optFlatMap, hys]
      simp only [Option.some_bind]
      rw [hzs]
      simp only [Option.some_bind]
    · simp only [List.length_append, List.length_cons, hyslen, hzslen]
      ring

/-- Python `flatMap` with constant inner length. -/
theorem length_flatMap_const {α β : Type} (f : α → List β) (m : Nat)
    (l : List α) (h : ∀ a ∈ l, (f a).length = m) :
    (l.flatMap f).length = l.length * m := by
  induction l with
  | nil => simp
  | cons a t ih =>
    simp only [List.flatMap_cons, List.length_append, List.length_cons,
      h a (List.mem_cons_self a t), ih (fun b hb => h b (List.mem_cons_of_mem a hb))]
    ring

/-- The note family: `|notes| × |octaves|` programs, never an error when
the section is present. -/
theorem read_note_programs_eq (cfg : ConfigFile) (ns : List String)
    (hn : cfg.programs_notes = some ns) :
    ∃ pn, cfg.read_note_programs = some pn ∧
      pn.length = ns.length * cfg.octave_range.length := by
  simp only [ConfigFile.read_note_programs, hn]
  by_cases hns : ns = []
  · subst hns
    exact ⟨[], by rw [if_pos rfl]; rfl, by simp⟩
  · rw [if_neg hns]
    refine ⟨_, rfl, ?_⟩
    exact length_flatMap_const _ _ ns (fun a _ => by simp)

/-- The interval family: `|intervals| × 12 × |octaves|` programs when
every configured interval name is canonical. -/
theorem read_interval_programs_eq (cfg : ConfigFile) (ivs : List String)
    (hi : cfg.programs_intervals = some ivs)
    (hiv : ∀ iv ∈ ivs, (SEMITONE_MAP.lookup iv).isSome = true) :
    ∃ ps, cfg.read_interval_programs = some ps ∧
      ps.length = ivs.length * 12 * cfg.octave_range.length := by
  simp only [ConfigFile.read_interval_programs, hi]
  by_cases hnil : ivs = []
  · subst hnil
    exact ⟨[], by rw [if_pos rfl]; rfl, by simp⟩
  · rw [if_neg hnil,
      show ivs.length * 12 * cfg.octave_range.length =
        ivs.length * (12 * cfg.octave_range.length) from by ring]
    apply optFlatMap_length
    intro ivName hmem
    obtain ⟨s, hs⟩ := Option.isSome_iff_exists.mp (hiv ivName hmem)
    obtain ⟨hs0, hs12⟩ := semitone_lookup_bounds ivName s hs
    rw [show 12 * cfg.octave_range.length =
      NOTES.length * cfg.octave_range.length from rfl]
    apply optFlatMap_length
    intro note_name hn2
    rw [show cfg.octave_range.length = cfg.octave_range.length * 1 from by omega]
    apply optFlatMap_length
    intro octave _
    obtain ⟨m, hm⟩ := add_semitones_some ⟨note_name, octave⟩ hn2 s hs0 hs12
    exact bind_some_singleton _ _ _
      (interval_init_eq ivName ⟨note_name, octave⟩ s m hs hm)

/-- The chord family: `|qualities| × 12 × |octaves|` programs when every
configured quality is canonical. -/
theorem read_chord_programs_eq (cfg : ConfigFile) (cs : List String)
    (hc : cfg.programs_chords = some cs)
    (hcq : ∀ q ∈ cs, (INTERVAL_MAP.lookup q).isSome = true) :
    ∃ ps, cfg.read_chord_programs = some ps ∧
      ps.length = cs.length * 12 * cfg.octave_range.length := by
  simp only [ConfigFile.read_chord_programs, hc]
  by_cases hnil : cs = []
  · subst hnil
    exact ⟨[], by rw [if_pos rfl]; rfl, by simp⟩
  · rw [if_neg hnil,
      show cs.length * 12 * cfg.octave_range.length =
        cs.length * (12 * cfg.octave_range.length) from by ring]
    apply optFlatMap_length
    intro chord_type hmem
    obtain ⟨ivs, hivs⟩ := Option.isSome_iff_exists.mp (hcq chord_type hmem)
    rw [show 12 * cfg.octave_range.length =
      NOTES.length * cfg.octave_range.length from rfl]
    apply optFlatMap_length
    intro note_name hn2
    rw [show cfg.octave_range.length = cfg.octave_range.length * 1 from by omega]
    apply optFlatMap_length
    intro octave _
    obtain ⟨c, hcx⟩ := chord_init_some note_name hn2 chord_type ivs hivs octave
    exact bind_some_singleton _ _ _ hcx

/-- C6: with all three sections present, `k` octaves in the inclusive
range, and every configured interval and chord token canonical, the
catalogue is exactly the note programs, then the interval programs, then
the chord programs, with `|notes| * k`, `|intervals| * 12 * k` and
`|chords| * 12 * k` programs respectively (an empty list yields zero for
its family). -/
theorem generator_catalogue_counts
    (cfg : ConfigFile) (ns ivs cs : List String) (k : Nat)
    (hn : cfg.programs_notes = some ns)
    (hi : cfg.programs_intervals = some ivs)
    (hc : cfg.programs_chords = some cs)
    (hk : cfg.octave_range.length = k)
    (hiv : ∀ iv ∈ ivs, (SEMITONE_MAP.lookup iv).isSome = true)
    (hcq : ∀ q ∈ cs, (INTERVAL_MAP.lookup q).isSome = true) :
    ∃ pn p2 p3,
      cfg.read_note_programs = some pn ∧
      cfg.read_interval_programs = some p2 ∧
      cfg.read_chord_programs = some p3 ∧
      cfg.read_programs = some (pn ++ p2 ++ p3) ∧
      pn.length = ns.length * k ∧
      p2.length = ivs.length * 12 * k ∧
      p3.length = cs.length * 12 * k := by
  obtain ⟨pn, hpn, hpnlen⟩ := read_note_programs_eq cfg ns hn
  obtain ⟨p2, hp2, hp2len⟩ := read_interval_programs_eq cfg ivs hi hiv
  obtain ⟨p3, hp3, hp3len⟩ := read_chord_programs_eq cfg cs hc hcq
  refine ⟨pn, p2, p3, hpn, hp2, hp3, ?_, by rw [hpnlen, hk], by rw [hp2len, hk],
    by rw [hp3len, hk]⟩
  rw [ConfigFile.read_programs, hpn]
  simp only [Option.some_bind]
  rw [hp2]
  simp only [Option.some_bind]
  rw [hp3]
  simp only [Option.some_bind]

/-- Witness for C6: one note, one interval, one chord quality over the
single octave 4: 1 note-program, 12 interval-programs, 12
chord-programs. -/
theorem generator_catalogue_counts_witness :
    ∃ pn p2 p3,
      ConfigFile.read_note_programs ⟨⟨4, 4, 1000, 1500⟩, some ["C"],
        some ["5th"], some ["maj"]⟩ = some pn ∧
      ConfigFile.read_interval_programs ⟨⟨4, 4, 1000, 1500⟩, some ["C"],
        some ["5th"], some ["maj"]⟩ = some p2 ∧
      ConfigFile.read_chord_programs ⟨⟨4, 4, 1000, 1500⟩, some ["C"],
        some ["5th"], some ["maj"]⟩ = some p3 ∧
      ConfigFile.read_programs ⟨⟨4, 4, 1000, 1500⟩, some ["C"],
        some ["5th"], some ["maj"]⟩ = some (pn ++ p2 ++ p3) ∧
      pn.length = ["C"].length * 1 ∧
      p2.length = ["5th"].length * 12 * 1 ∧
      p3.length = ["maj"].length * 12 * 1 :=
  generator_catalogue_counts ⟨⟨4, 4, 1000, 1500⟩, some ["C"], some ["5th"],
    some ["maj"]⟩ ["C"] ["5th"] ["maj"] 1 rfl rfl rfl (by decide)
    (by decide) (by decide)

end EarTrainerLoop
